import Mathlib

/-!
Verification of the filter/match/compare query layer of the mobile
shopping agent backend.

The definitions below are a shallow embedding of `src/backend/tools.py`
(numeric derivation helpers, `search_phones_by_filters`,
`get_phone_details`, `compare_phones`, `explain_phone_feature`) and of
the catalog lookup functions `get_phone_by_id` / `get_phone_by_model`
from `src/backend/database.py`.  Python strings are modelled as `String`
(lists of unicode scalar values), Python `int` as `Int`/`Nat`, Python
`None`/missing dict keys as `Option`, and the `re` patterns used by the
code are implemented directly as left-to-right scanners with the same
greedy/backtracking behaviour as the source regexes (`\d` and `\s` are
modelled over their ASCII ranges, which covers the catalog text).
Python `float` values produced by `float(m)` on a decimal token are
modelled exactly as mantissa/scale pairs (`DecTok`), which agrees with
the source on every token whose decimal expansion fits a double.
-/

/-! ## String primitives mirroring the Python operations used -/

/-- Python `str.lower()` (restricted to the ASCII case mapping of `Char.toLower`). -/
def lowerStr (s : String) : String := String.mk (s.data.map Char.toLower)

/-- Does the second list start with the first one? -/
def startsW : List Char → List Char → Bool
  | [], _ => true
  | _ :: _, [] => false
  | n :: ns, h :: hs => n == h && startsW ns hs

/-- Python `needle in hay` over the character lists. -/
def hasSub (needle : List Char) : List Char → Bool
  | [] => startsW needle []
  | h :: t => startsW needle (h :: t) || hasSub needle t

/-- Python substring test `needle in hay` on strings. -/
def strIn (needle hay : String) : Bool := hasSub needle.data hay.data

/-- Python `dict.get(k, "")` shape: an absent optional string becomes `""`. -/
def orEmpty : Option String → String
  | some s => s
  | none => ""

/-- The characters matched by the regex class `\s` (ASCII range). -/
def isSpaceChar (c : Char) : Bool :=
  c == ' ' || c == '\t' || c == '\n' || c == '\r' || c == Char.ofNat 11 || c == Char.ofNat 12

/-- Consume the `\s*` part of a pattern. -/
def dropSpaces (l : List Char) : List Char := l.dropWhile isSpaceChar

/-- Python `int` on a list of decimal digits. -/
def digitsToNat (l : List Char) : Nat :=
  l.foldl (fun acc c => 10 * acc + (c.toNat - 48)) 0

/-- Case-insensitive literal match: consume `unit` from the front of `l`. -/
def matchCI : List Char → List Char → Option (List Char)
  | [], l => some l
  | _ :: _, [] => none
  | u :: us, c :: cs => if c.toLower == u.toLower then matchCI us cs else none

/-- The `\s*` ++ case-insensitive unit suffix of the measurement patterns. -/
def unitAfter (unit : List Char) (l : List Char) : Option (List Char) :=
  matchCI unit (dropSpaces l)

/-! ## The scanners for the `re` patterns of `tools.py` -/

/-- The group `(\d[\d,]*)` at the current position: its integer value
(`int(match.replace(",", ""))`) and the rest of the input after it. -/
def numTokenAt (l : List Char) : Option (Nat × List Char) :=
  match l with
  | [] => none
  | c :: rest =>
    if c.isDigit then
      let run := rest.takeWhile (fun d => d.isDigit || d == ',')
      let rest2 := rest.dropWhile (fun d => d.isDigit || d == ',')
      some (digitsToNat ((c :: run).filter Char.isDigit), rest2)
    else none

/-- The alternation `(?:₹|rs\.?|inr)` (case-insensitive) at the current
position; the three alternatives start with pairwise distinct characters,
so regex backtracking across alternatives never fires. -/
def afterCurrencyMark : List Char → Option (List Char)
  | [] => none
  | c :: rest =>
    if c == '₹' then some rest
    else
      match rest with
      | [] => none
      | c2 :: r2 =>
        if c.toLower == 'r' && c2.toLower == 's' then
          match r2 with
          | '.' :: r3 => some r3
          | _ => some r2
        else
          match r2 with
          | c3 :: r3 =>
            if c.toLower == 'i' && c2.toLower == 'n' && c3.toLower == 'r' then some r3
            else none
          | [] => none

/-- One full match of `(?:₹|rs\.?|inr)\s*(\d[\d,]*)` at the current position. -/
def currencyTokenAt (l : List Char) : Option (Nat × List Char) :=
  match afterCurrencyMark l with
  | none => none
  | some r => numTokenAt (dropSpaces r)

/-- `re.findall` scan for the currency pattern: try each position left to
right, emit non-overlapping matches.  `fuel` bounds the recursion and is
always instantiated with the length of the input. -/
def currencyScanF : Nat → List Char → List Nat
  | 0, _ => []
  | _, [] => []
  | fuel + 1, c :: rest =>
    match currencyTokenAt (c :: rest) with
    | some (v, r2) => v :: currencyScanF fuel r2
    | none => currencyScanF fuel rest

/-- All values captured by `re.findall(r"(?:₹|rs\.?|inr)\s*(\d[\d,]*)", s, re.IGNORECASE)`. -/
def currencyValues (s : String) : List Nat := currencyScanF s.data.length s.data

/-- `re.findall` scan for the generic pattern `(\d[\d,]*)`. -/
def genericScanF : Nat → List Char → List Nat
  | 0, _ => []
  | _, [] => []
  | fuel + 1, c :: rest =>
    match numTokenAt (c :: rest) with
    | some (v, r2) => v :: genericScanF fuel r2
    | none => genericScanF fuel rest

/-- All values captured by `re.findall(r"(\d[\d,]*)", s)`. -/
def genericValues (s : String) : List Nat := genericScanF s.data.length s.data

/-- A decimal token `\d+(?:\.\d+)?` with exact value `mantissa / 10 ^ scale`;
this models the Python `float(m)` conversion of the captured group. -/
structure DecTok where
  mantissa : Nat
  scale : Nat
deriving DecidableEq

/-- Numeric order on decimal tokens (cross multiplication). -/
def DecTok.lt (a b : DecTok) : Bool :=
  decide (a.mantissa * 10 ^ b.scale < b.mantissa * 10 ^ a.scale)

/-- Python `int()` truncation of a non-negative decimal token. -/
def DecTok.trunc (a : DecTok) : Nat := a.mantissa / 10 ^ a.scale

/-- One full match of `(\d+(?:\.\d+)?)\s*GB` (case-insensitive) at the
current position.  When a fractional part `.\d+` is present the unit must
follow it; when the continuation fails the regex cannot recover by
giving digits back (the next pattern character would have to match a
digit), so no further backtracking is needed. -/
def gbTokenAt (l : List Char) : Option (DecTok × List Char) :=
  match l with
  | [] => none
  | c :: rest =>
    if c.isDigit then
      let intRun := c :: rest.takeWhile Char.isDigit
      let afterInt := rest.dropWhile Char.isDigit
      match afterInt with
      | '.' :: d :: fr =>
        if d.isDigit then
          let fracRun := d :: fr.takeWhile Char.isDigit
          let afterFrac := fr.dropWhile Char.isDigit
          match unitAfter ['g', 'b'] afterFrac with
          | some r2 => some (⟨digitsToNat (intRun ++ fracRun), fracRun.length⟩, r2)
          | none => none
        else
          match unitAfter ['g', 'b'] afterInt with
          | some r2 => some (⟨digitsToNat intRun, 0⟩, r2)
          | none => none
      | _ =>
        match unitAfter ['g', 'b'] afterInt with
        | some r2 => some (⟨digitsToNat intRun, 0⟩, r2)
        | none => none
    else none

/-- `re.findall` scan for `(\d+(?:\.\d+)?)\s*GB`. -/
def gbScanF : Nat → List Char → List DecTok
  | 0, _ => []
  | _, [] => []
  | fuel + 1, c :: rest =>
    match gbTokenAt (c :: rest) with
    | some (v, r2) => v :: gbScanF fuel r2
    | none => gbScanF fuel rest

/-- All tokens captured by `re.findall(r"(\d+(?:\.\d+)?)\s*GB", s, re.IGNORECASE)`. -/
def gbValues (s : String) : List DecTok := gbScanF s.data.length s.data

/-- The bounded repetition `\d{lo,hi}` of the battery / refresh patterns:
try to use exactly `k` of the digits available at the current position,
then require `\s*` and the case-insensitive unit. -/
def tryDigitsK (unit : List Char) (l : List Char) (run : List Char) (k : Nat) :
    Option (Nat × List Char) :=
  if k ≤ run.length then
    match unitAfter unit (l.drop k) with
    | some r2 => some (digitsToNat (run.take k), r2)
    | none => none
  else none

/-- One match of `(\d{3,5})\s*mAh` (case-insensitive) at the current
position: greedy, so five digits are tried first, then four, then three. -/
def mahTokenAt (l : List Char) : Option (Nat × List Char) :=
  let run := l.takeWhile Char.isDigit
  match tryDigitsK ['m', 'a', 'h'] l run 5 with
  | some v => some v
  | none =>
    match tryDigitsK ['m', 'a', 'h'] l run 4 with
    | some v => some v
    | none => tryDigitsK ['m', 'a', 'h'] l run 3

/-- `re.search` for `(\d{3,5})\s*mAh`: value of the leftmost match. -/
def mahSearch : List Char → Option Nat
  | [] => none
  | c :: rest =>
    match mahTokenAt (c :: rest) with
    | some (v, _) => some v
    | none => mahSearch rest

/-- `re.findall`-style scan for `(\d{3,5})\s*mAh` (used to state that the
search returns the first of all matches). -/
def mahScanF : Nat → List Char → List Nat
  | 0, _ => []
  | _, [] => []
  | fuel + 1, c :: rest =>
    match mahTokenAt (c :: rest) with
    | some (v, r2) => v :: mahScanF fuel r2
    | none => mahScanF fuel rest

/-- All matches of the mAh pattern in the string. -/
def mahValues (s : String) : List Nat := mahScanF s.data.length s.data

/-- One match of `(\d{2,3})\s*Hz` (case-insensitive) at the current position. -/
def hzTokenAt (l : List Char) : Option (Nat × List Char) :=
  let run := l.takeWhile Char.isDigit
  match tryDigitsK ['h', 'z'] l run 3 with
  | some v => some v
  | none => tryDigitsK ['h', 'z'] l run 2

/-- `re.search` for `(\d{2,3})\s*Hz`: value of the leftmost match. -/
def hzSearch : List Char → Option Nat
  | [] => none
  | c :: rest =>
    match hzTokenAt (c :: rest) with
    | some (v, _) => some v
    | none => hzSearch rest

/-! ## The catalog data model

One row of the Supabase `phones` table, as consumed by `tools.py`
(fields `id`, `brand_name`, `phone_name`, `price`, `spotlight`,
`all_specs`; the record of the static catalog variant in `database.py`
plays the same role with its display name stored under `model`, which is
`phone_name` here).  `Option` marks a key that may be missing, matching
the `dict.get` accesses of the source. -/

structure SpecEntry where
  label : Option String
  info : Option String
deriving DecidableEq

structure Spotlight where
  ram_size : Option String
  battery_size : Option String
deriving DecidableEq

structure CatalogRecord where
  id : String
  brand_name : Option String
  phone_name : String
  price : Option String
  spotlight : Option Spotlight
  all_specs : Option (List (String × List SpecEntry))
deriving DecidableEq

/-- The `spotlight or {}` default of the source. -/
def emptySpotlight : Spotlight := { ram_size := none, battery_size := none }

/-- Python truthiness filter on an optional string (`if piece:`). -/
def optTruthy : Option String → Option String
  | some s => if s == "" then none else some s
  | none => none

/-- `(phone.get("all_specs") or {}).get(cat, [])`. -/
def specCategory (specs : Option (List (String × List SpecEntry))) (cat : String) :
    List SpecEntry :=
  match (specs.getD []).find? (fun kv => kv.1 == cat) with
  | some kv => kv.2
  | none => []

/-! ## The numeric derivation helpers of `tools.py` -/

/-- The fallback accumulation of `_parse_lowest_price`: generic digit-group
tokens kept only when `numeric_value >= 1000`. -/
def bigGeneric (s : String) : List Nat :=
  (genericValues s).filter (fun v => decide (1000 ≤ v))

/-- `_parse_lowest_price`, factored over the only record field it reads. -/
def lowestPriceOfText (price : Option String) : Option Int :=
  let price_text := orEmpty price
  let values := currencyValues price_text
  let values2 := if values.isEmpty then bigGeneric price_text else values
  match values2 with
  | [] => none
  | v :: vs => some (Int.ofNat (vs.foldl Nat.min v))

/-- `_parse_lowest_price(phone)` from `src/backend/tools.py`. -/
def _parse_lowest_price (phone : CatalogRecord) : Option Int :=
  lowestPriceOfText phone.price

/-- The keeper of the first Python `max` of a running fold (`max(values)`). -/
def maxTok (acc x : DecTok) : DecTok := if DecTok.lt acc x then x else acc

/-- The `" ".join(pieces)` text scanned by `_parse_max_ram`. -/
def ramJoined (ram_size : Option String) (specs : Option (List (String × List SpecEntry))) :
    String :=
  let pieces :=
    (optTruthy ram_size).toList ++
      (specCategory specs ("Memory")).filterMap (fun e => optTruthy e.info)
  String.intercalate (" ") pieces

/-- `_parse_max_ram`, factored over the fields it reads. -/
def maxRamOfFields (ram_size : Option String)
    (specs : Option (List (String × List SpecEntry))) : Option Int :=
  match gbValues (ramJoined ram_size specs) with
  | [] => none
  | t :: ts => some (Int.ofNat (DecTok.trunc (ts.foldl maxTok t)))

/-- `_parse_max_ram(phone)` from `src/backend/tools.py`. -/
def _parse_max_ram (phone : CatalogRecord) : Option Int :=
  maxRamOfFields (phone.spotlight.getD emptySpotlight).ram_size phone.all_specs

/-- The `" ".join(pieces)` text scanned by `_parse_battery_capacity`. -/
def batteryJoined (battery_size : Option String)
    (specs : Option (List (String × List SpecEntry))) : String :=
  let pieces :=
    (optTruthy battery_size).toList ++
      (specCategory specs ("Battery")).filterMap (fun e => optTruthy e.info)
  String.intercalate (" ") pieces

/-- `_parse_battery_capacity`, factored over the fields it reads. -/
def batteryOfFields (battery_size : Option String)
    (specs : Option (List (String × List SpecEntry))) : Option Int :=
  (mahSearch (batteryJoined battery_size specs).data).map (fun n => Int.ofNat n)

/-- `_parse_battery_capacity(phone)` from `src/backend/tools.py`. -/
def _parse_battery_capacity (phone : CatalogRecord) : Option Int :=
  batteryOfFields (phone.spotlight.getD emptySpotlight).battery_size phone.all_specs

/-- `_parse_refresh_rate`, factored over the field it reads: the first
`Display` entry whose `info` text contains an `Hz` match wins. -/
def refreshOfSpecs (specs : Option (List (String × List SpecEntry))) : Option Int :=
  (specCategory specs ("Display")).findSome?
    (fun e => (hzSearch (orEmpty e.info).data).map (fun n => Int.ofNat n))

/-- `_parse_refresh_rate(phone)` from `src/backend/tools.py`. -/
def _parse_refresh_rate (phone : CatalogRecord) : Option Int :=
  refreshOfSpecs phone.all_specs

/-! ## Catalog lookups (`src/backend/database.py`) -/

/-- `get_phone_by_id`: first record whose `id` equals `phone_id` exactly. -/
def get_phone_by_id (db : List CatalogRecord) (phone_id : String) : Option CatalogRecord :=
  db.find? (fun p => p.id == phone_id)

/-- `get_phone_by_model`: first record whose display name or id contains the
lowercased query as a substring (`model_lower in phone["model"].lower() or
model_lower in phone["id"].lower()`). -/
def get_phone_by_model (db : List CatalogRecord) (model_name : String) : Option CatalogRecord :=
  let model_lower := lowerStr model_name
  db.find? (fun p => strIn model_lower (lowerStr p.phone_name) || strIn model_lower (lowerStr p.id))

/-- The id-then-name resolution shared by `get_phone_details` and
`compare_phones` (`get_phone_by_id(x) or get_phone_by_model(x)`). -/
def resolvePhone (db : List CatalogRecord) (phone_id : String) : Option CatalogRecord :=
  match get_phone_by_id db phone_id with
  | some r => some r
  | none => get_phone_by_model db phone_id

/-! ## `search_phones_by_filters` -/

/-- The optional keyword arguments of `search_phones_by_filters`. -/
structure SearchFilters where
  max_price : Option Int
  min_price : Option Int
  brand : Option String
  min_ram : Option Int
  battery_threshold : Option Int
  refresh_rate : Option Int
deriving DecidableEq

/-- A value of the heterogeneous `filters` dict built by the tool. -/
inductive FilterValue where
  | int (n : Int)
  | str (s : String)
deriving DecidableEq

/-- One optional `filters[key] = value` assignment. -/
def entryOptInt (key : String) (v : Option Int) : List (String × FilterValue) :=
  match v with
  | some n => [(key, FilterValue.int n)]
  | none => []

/-- The `filters` dict of `search_phones_by_filters`, in insertion order. -/
def filtersApplied (f : SearchFilters) : List (String × FilterValue) :=
  entryOptInt ("max_price") f.max_price ++
    entryOptInt ("min_price") f.min_price ++
    (match f.brand with
      | some b => [(("brand"), FilterValue.str b)]
      | none => []) ++
    entryOptInt ("min_ram") f.min_ram ++
    entryOptInt ("battery_threshold") f.battery_threshold ++
    entryOptInt ("refresh_rate") f.refresh_rate

/-- The `if brand and phone.get("brand_name", "").lower() != brand.lower()`
exclusion: fires only for a truthy (non-`None`, non-empty) brand argument. -/
def brandRejects (brand : Option String) (brand_name : Option String) : Bool :=
  match brand with
  | none => false
  | some b => !(b == "") && !(lowerStr (orEmpty brand_name) == lowerStr b)

/-- `bound is not None and value is not None and value > bound`. -/
def exceedsMax (bound : Option Int) (value : Option Int) : Bool :=
  match bound, value with
  | some b, some v => decide (b < v)
  | _, _ => false

/-- `bound is not None and value is not None and value < bound`. -/
def belowMin (bound : Option Int) (value : Option Int) : Bool :=
  match bound, value with
  | some b, some v => decide (v < b)
  | _, _ => false

/-- The body of the per-record loop of `search_phones_by_filters`: a record
is appended to the results exactly when no `continue` fires. -/
def passesFilters (f : SearchFilters) (phone : CatalogRecord) : Bool :=
  let price_value := _parse_lowest_price phone
  let ram_value := _parse_max_ram phone
  let battery_value := _parse_battery_capacity phone
  let refresh_value := _parse_refresh_rate phone
  !(brandRejects f.brand phone.brand_name) &&
    !(exceedsMax f.max_price price_value) &&
    !(belowMin f.min_price price_value) &&
    !(belowMin f.min_ram ram_value) &&
    !(belowMin f.battery_threshold battery_value) &&
    !(belowMin f.refresh_rate refresh_value)

/-- The result dict of `search_phones_by_filters`. -/
structure SearchResult where
  success : Bool
  count : Nat
  filters_applied : List (String × FilterValue)
  phones : List CatalogRecord
  message : String
deriving DecidableEq

/-- `search_phones_by_filters` from `src/backend/tools.py`; the row set
returned by `get_all_phones()` is passed in as `db`. -/
def search_phones_by_filters (db : List CatalogRecord) (f : SearchFilters) : SearchResult :=
  let results := db.filter (passesFilters f)
  { success := true
    count := results.length
    filters_applied := filtersApplied f
    phones := results
    message := "Found " ++ toString results.length ++ " phone(s) (raw Supabase rows)." }

/-! ## `get_phone_details` and `compare_phones` -/

/-- The result dict of `get_phone_details` (the source failure dict carries
the id inside single quotes in `error`; the quotes are elided here). -/
structure DetailsResult where
  success : Bool
  phone : Option CatalogRecord
  error : Option String
  message : String
deriving DecidableEq

/-- `get_phone_details` from `src/backend/tools.py`. -/
def get_phone_details (db : List CatalogRecord) (phone_id : String) : DetailsResult :=
  let phone :=
    match get_phone_by_id db phone_id with
    | some r => some r
    | none => get_phone_by_model db phone_id
  match phone with
  | none =>
    { success := false
      phone := none
      error := some ("Phone " ++ phone_id ++ " not found in database")
      message := "Please check the phone ID and try again" }
  | some p =>
    { success := true
      phone := some p
      error := none
      message := "Raw phone data returned from Supabase." }

/-- The result dict of `compare_phones` (the failure dict of the source has
no `phones` key, modelled as the empty list). -/
structure CompareResult where
  success : Bool
  phones : List CatalogRecord
  error : Option String
  message : String
deriving DecidableEq

/-- `compare_phones` from `src/backend/tools.py`: the third id is looked up
only when it is truthy (non-`None` and non-empty). -/
def compare_phones (db : List CatalogRecord) (phone_id_1 phone_id_2 : String)
    (phone_id_3 : Option String) : CompareResult :=
  let phone_1 := resolvePhone db phone_id_1
  let phone_2 := resolvePhone db phone_id_2
  let phone_3 :=
    match phone_id_3 with
    | some s => if s == "" then none else resolvePhone db s
    | none => none
  match phone_1, phone_2 with
  | some p1, some p2 =>
    { success := true
      phones := [p1, p2] ++ (match phone_3 with | some p3 => [p3] | none => [])
      error := none
      message := "Raw phone records ready for LLM-driven comparison." }
  | _, _ =>
    { success := false
      phones := []
      error := some ("One or more phones not found")
      message := "Please check the phone IDs and try again" }

/-! ## `explain_phone_feature`

The glossary is embedded as its ordered association list of keys paired
with the `name` field of each entry (the remaining presentation text of
an entry is never inspected by the lookup logic, so the `name` string
identifies the entry). -/

def glossary : List (String × String) :=
  [ (("ois"), ("Optical Image Stabilization (OIS)"))
  , (("eis"), ("Electronic Image Stabilization (EIS)"))
  , (("ois vs eis"), ("OIS vs EIS"))
  , (("5g"), ("5G Connectivity"))
  , (("wifi 6e"), ("Wi-Fi 6E"))
  , (("oled"), ("OLED Display"))
  , (("lcd"), ("LCD Display"))
  , (("refresh rate"), ("Display Refresh Rate"))
  , (("pwm dimming"), ("High-Frequency PWM Dimming"))
  , (("camera megapixels"), ("Camera Megapixels"))
  , (("sensor size"), ("Camera Sensor Size"))
  , (("hdr"), ("HDR (High Dynamic Range) Video/Photo"))
  , (("battery capacity"), ("Battery Capacity"))
  , (("fast charging"), ("Fast Wired Charging"))
  , (("wireless charging"), ("Qi Wireless Charging"))
  , (("ram"), ("Random Access Memory (RAM)"))
  , (("storage"), ("UFS Storage"))
  , (("chipset tiers"), ("Mobile Chipset Tiers"))
  , (("android updates"), ("Android Update Policy"))
  , (("ip rating"), ("Ingress Protection (IP) Rating"))
  , (("gorilla glass"), ("Corning Gorilla Glass"))
  , (("pwm"), ("PWM (Pulse-Width Modulation)")) ]

/-- The result dict of `explain_phone_feature`, keyed by the matched
entry's `name`. -/
structure ExplainResult where
  success : Bool
  feature : Option String
  available_features : Option (List String)
deriving DecidableEq

/-- `explain_phone_feature` from `src/backend/tools.py`: exact key match on
the lowercased query, then the first key related to it by substring in
either direction, else a not-found result listing every key. -/
def explain_phone_feature (feature : String) : ExplainResult :=
  let explanations := glossary.map (fun kv => (lowerStr kv.1, kv.2))
  let feature_lower := lowerStr feature
  match explanations.lookup feature_lower with
  | some v => { success := true, feature := some v, available_features := none }
  | none =>
    match explanations.find? (fun kv => strIn kv.1 feature_lower || strIn feature_lower kv.1) with
    | some kv => { success := true, feature := some kv.2, available_features := none }
    | none =>
      { success := false
        feature := none
        available_features := some (explanations.map (fun kv => kv.1)) }

/-! ## Spec-side predicates (stated from the claim texts, for comparison
with the code-side definitions above) -/

/-- Claim wording of the brand constraint as frozen: whenever `brand` is
supplied, a record with a missing `brand_name` is excluded; otherwise
match brand names case-insensitively. -/
def specBrandOkOrig (brand : Option String) (brand_name : Option String) : Bool :=
  match brand with
  | none => true
  | some b =>
    match brand_name with
    | none => false
    | some t => lowerStr t == lowerStr b

/-- Amended wording of the brand constraint: it is enforced (and then a
missing `brand_name` excludes the record) only when the supplied brand
string is non-empty. -/
def specBrandOk (brand : Option String) (brand_name : Option String) : Bool :=
  match brand with
  | none => true
  | some b =>
    if b == "" then true
    else
      match brand_name with
      | none => false
      | some t => lowerStr t == lowerStr b

/-- Claim wording of an upper-bound constraint: it excludes only when both
the bound and the derived value are present and the comparison fails. -/
def specMaxOk (bound : Option Int) (value : Option Int) : Bool :=
  match bound, value with
  | some b, some v => decide (v ≤ b)
  | _, _ => true

/-- Claim wording of a lower-bound constraint. -/
def specMinOk (bound : Option Int) (value : Option Int) : Bool :=
  match bound, value with
  | some b, some v => decide (b ≤ v)
  | _, _ => true

/-- A record survives every supplied constraint, with the claim's original
brand wording. -/
def specSurvivesOrig (f : SearchFilters) (phone : CatalogRecord) : Bool :=
  specBrandOkOrig f.brand phone.brand_name &&
    specMaxOk f.max_price (_parse_lowest_price phone) &&
    specMinOk f.min_price (_parse_lowest_price phone) &&
    specMinOk f.min_ram (_parse_max_ram phone) &&
    specMinOk f.battery_threshold (_parse_battery_capacity phone) &&
    specMinOk f.refresh_rate (_parse_refresh_rate phone)

/-- A record survives every supplied constraint, with the amended brand
wording. -/
def specSurvives (f : SearchFilters) (phone : CatalogRecord) : Bool :=
  specBrandOk f.brand phone.brand_name &&
    specMaxOk f.max_price (_parse_lowest_price phone) &&
    specMinOk f.min_price (_parse_lowest_price phone) &&
    specMinOk f.min_ram (_parse_max_ram phone) &&
    specMinOk f.battery_threshold (_parse_battery_capacity phone) &&
    specMinOk f.refresh_rate (_parse_refresh_rate phone)

/-- Identity resolution exactly as the claim words it: exact `id` match,
else the first record whose phone name (only) contains the identifier
case-insensitively. -/
def specResolveNameOnly (db : List CatalogRecord) (identifier : String) :
    Option CatalogRecord :=
  match db.find? (fun p => p.id == identifier) with
  | some r => some r
  | none => db.find? (fun p => strIn (lowerStr identifier) (lowerStr p.phone_name))

/-- Identity resolution as amended: exact `id` match, else the first record
whose phone name or id contains the identifier case-insensitively. -/
def specResolveNameOrId (db : List CatalogRecord) (identifier : String) :
    Option CatalogRecord :=
  match db.find? (fun p => p.id == identifier) with
  | some r => some r
  | none =>
    db.find? (fun p =>
      strIn (lowerStr identifier) (lowerStr p.phone_name) ||
        strIn (lowerStr identifier) (lowerStr p.id))

/-- Packaging of a resolution outcome into the `get_phone_details` result
shape: a resolved record yields a success payload, no record yields the
structured not-found result. -/
def detailsFor (phone_id : String) : Option CatalogRecord → DetailsResult
  | some p =>
    { success := true
      phone := some p
      error := none
      message := "Raw phone data returned from Supabase." }
  | none =>
    { success := false
      phone := none
      error := some ("Phone " ++ phone_id ++ " not found in database")
      message := "Please check the phone ID and try again" }

/-- The glossary lookup as the claim words it: the entry whose key equals
the lowercased query exactly when one exists, else the first entry whose
key is a substring of the query or contains the query, else a not-found
result listing all keys. -/
def specExplain (feature : String) : ExplainResult :=
  let keyed := glossary.map (fun kv => (lowerStr kv.1, kv.2))
  let q := lowerStr feature
  match keyed.find? (fun kv => kv.1 == q) with
  | some kv => { success := true, feature := some kv.2, available_features := none }
  | none =>
    match keyed.find? (fun kv => strIn kv.1 q || strIn q kv.1) with
    | some kv => { success := true, feature := some kv.2, available_features := none }
    | none =>
      { success := false
        feature := none
        available_features := some (keyed.map (fun kv => kv.1)) }

/-! ## The catalog store client retry policy

Modelled from the spec: the Supabase store client module itself is not
part of `src/backend` in this snapshot (only its callers in `tools.py`
are), so its retry behaviour — up to `MAX_RETRIES` attempts (default 3),
exponential backoff `base * 2^(attempt-1)` capped at a maximum delay,
plus random jitter in `[0, 0.3)` time units, with a terminal failure
distinct from an empty row set after exhaustion — is embedded from the
spec's words.  The jitter source is passed in as a function of the
attempt number, and the trace records which attempts ran and which
delays were slept. -/

def backoffDelay (base cap : Rat) (attempt : Nat) (jitter : Rat) : Rat :=
  min (base * 2 ^ (attempt - 1)) cap + jitter

/-- Outcome of a store query round: a row set or a terminal failure. -/
inductive StoreOutcome (α : Type) where
  | rows (xs : List α)
  | terminalFailure (msg : String)
deriving DecidableEq

/-- Execution trace of the retry loop: final outcome, the attempt numbers
that actually ran, and the backoff delays slept between attempts. -/
structure RetryTrace (α : Type) where
  outcome : StoreOutcome α
  attempts : List Nat
  sleeps : List Rat

/-- The retry loop from attempt number `attempt` with `remaining + 1`
attempts still allowed; `query n = none` models attempt `n` raising. -/
def retryLoop (α : Type) (base cap : Rat) (jitter : Nat → Rat)
    (query : Nat → Option (List α)) : Nat → Nat → RetryTrace α
  | attempt, 0 =>
    match query attempt with
    | some xs => { outcome := StoreOutcome.rows xs, attempts := [attempt], sleeps := [] }
    | none =>
      { outcome := StoreOutcome.terminalFailure ("all retries exhausted")
        attempts := [attempt]
        sleeps := [] }
  | attempt, remaining + 1 =>
    match query attempt with
    | some xs => { outcome := StoreOutcome.rows xs, attempts := [attempt], sleeps := [] }
    | none =>
      let t := retryLoop α base cap jitter query (attempt + 1) remaining
      { outcome := t.outcome
        attempts := attempt :: t.attempts
        sleeps := backoffDelay base cap attempt (jitter attempt) :: t.sleeps }

/-- Run a query under the retry policy with `maxRetries` total attempts
(numbered from 1). -/
def runQueryWithRetry (α : Type) (maxRetries : Nat) (base cap : Rat) (jitter : Nat → Rat)
    (query : Nat → Option (List α)) : RetryTrace α :=
  retryLoop α base cap jitter query 1 (maxRetries - 1)

/-! ## Concrete records and inputs used by the instance parts of the
claims, the counterexamples and the witnesses -/

/-- The Pixel 8a row as documented in `agent_instructions.py`, with the
price text of spec property P1. -/
def p1Rec : CatalogRecord :=
  { id := "google_pixel_8a-12996"
    brand_name := some ("Google")
    phone_name := "Google Pixel 8a"
    price := some ("64GB 4GB RAM: ₹47,600, 128GB 4GB RAM: ₹52,600")
    spotlight := none
    all_specs := none }

/-- A record whose price text carries no currency token and one big
generic token. -/
def comingSoonRec : CatalogRecord :=
  { id := "soon-1"
    brand_name := some ("Acme")
    phone_name := "Acme Soon"
    price := some ("Coming soon, check back in 2025")
    spotlight := none
    all_specs := none }

/-- A record whose text fields are present but unparseable everywhere. -/
def junkRec : CatalogRecord :=
  { id := "junk-1"
    brand_name := none
    phone_name := "Mystery Phone"
    price := some ("Launching soon!")
    spotlight := some { ram_size := some ("TBD"), battery_size := some ("") }
    all_specs := some [(("Display"), [{ label := some ("Refresh"), info := some ("smooth display") }])] }

/-- A record with no `brand_name` and no parseable fields. -/
def noBrandRec : CatalogRecord :=
  { id := "p1", brand_name := none, phone_name := "Phone One"
    price := none, spotlight := none, all_specs := none }

/-- A filter set whose only supplied constraint is the empty brand string. -/
def emptyBrandFilters : SearchFilters :=
  { max_price := none, min_price := none, brand := some ("")
    min_ram := none, battery_threshold := none, refresh_rate := none }

/-- The empty-brand filter set with one numeric constraint, for the C10
witness. -/
def emptyBrandPlusPrice : SearchFilters :=
  { max_price := some 100000, min_price := none, brand := some ("")
    min_ram := none, battery_threshold := none, refresh_rate := none }

/-- `f` with the brand argument removed. -/
def dropBrand (f : SearchFilters) : SearchFilters :=
  { f with brand := none }

def pixelRec : CatalogRecord :=
  { id := "pixel-8a", brand_name := some ("Google"), phone_name := "Google Pixel 8a"
    price := none, spotlight := none, all_specs := none }

def iphoneRec : CatalogRecord :=
  { id := "iphone-15", brand_name := some ("Apple"), phone_name := "Apple iPhone 15"
    price := none, spotlight := none, all_specs := none }

def appleRec : CatalogRecord :=
  { id := "a", brand_name := some ("Apple"), phone_name := "Apple iPhone 15"
    price := none, spotlight := none, all_specs := none }

def alphaRec : CatalogRecord :=
  { id := "a", brand_name := some ("AlphaCo"), phone_name := "Alpha One"
    price := none, spotlight := none, all_specs := none }

def betaRec : CatalogRecord :=
  { id := "b", brand_name := some ("BetaCo"), phone_name := "Beta Two"
    price := none, spotlight := none, all_specs := none }

/-- A record sharing `p1Rec`'s price text but nothing else, for the C7
witness. -/
def otherPriceTwin : CatalogRecord :=
  { id := "twin-1"
    brand_name := some ("Twin")
    phone_name := "Twin Phone"
    price := some ("64GB 4GB RAM: ₹47,600, 128GB 4GB RAM: ₹52,600")
    spotlight := some { ram_size := some ("12 GB"), battery_size := some ("5000 mAh") }
    all_specs := none }


/-! ## General lemmas about the embedded primitives -/

theorem natMin_cases (x c : Nat) : Nat.min x c = x ∨ Nat.min x c = c := by
  by_cases h : x ≤ c
  · exact Or.inl (Nat.min_eq_left h)
  · exact Or.inr (Nat.min_eq_right (Nat.le_of_not_le h))

theorem foldlMin_spec (x : Nat) (xs : List Nat) :
    (xs.foldl Nat.min x = x ∨ xs.foldl Nat.min x ∈ xs) ∧
      xs.foldl Nat.min x ≤ x ∧ ∀ w ∈ xs, xs.foldl Nat.min x ≤ w := by
  induction xs generalizing x with
  | nil => exact ⟨Or.inl rfl, Nat.le_refl x, by simp⟩
  | cons c t ih =>
    rcases ih (Nat.min x c) with ⟨hmem, hle, hall⟩
    have hfold : (c :: t).foldl Nat.min x = t.foldl Nat.min (Nat.min x c) := rfl
    refine ⟨?_, ?_, ?_⟩
    · rw [hfold]
      rcases hmem with h | h
      · rcases natMin_cases x c with hm | hm
        · exact Or.inl (by rw [h, hm])
        · refine Or.inr ?_
          rw [h, hm]
          exact List.mem_cons_self c t
      · exact Or.inr (List.mem_cons_of_mem c h)
    · rw [hfold]
      exact Nat.le_trans hle (Nat.min_le_left x c)
    · intro w hw
      rw [hfold]
      rcases List.mem_cons.mp hw with h | h
      · rw [h]
        exact Nat.le_trans hle (Nat.min_le_right x c)
      · exact hall w h

/-- Numeric order on decimal tokens, as a proposition. -/
def DecTok.Le (a b : DecTok) : Prop :=
  a.mantissa * 10 ^ b.scale ≤ b.mantissa * 10 ^ a.scale

theorem DecTok.Le.refl (a : DecTok) : DecTok.Le a a := Nat.le_refl _

theorem DecTok.le_of_not_lt {a b : DecTok} (h : DecTok.lt a b = false) : DecTok.Le b a := by
  unfold DecTok.lt at h
  exact Nat.le_of_not_lt (by simpa using h)

theorem DecTok.le_of_lt {a b : DecTok} (h : DecTok.lt a b = true) : DecTok.Le a b := by
  unfold DecTok.lt at h
  exact Nat.le_of_lt (by simpa using h)

theorem DecTok.Le.trans {a b c : DecTok} (h1 : DecTok.Le a b) (h2 : DecTok.Le b c) :
    DecTok.Le a c := by
  unfold DecTok.Le at h1 h2 ⊢
  have key : a.mantissa * 10 ^ c.scale * 10 ^ b.scale ≤
      c.mantissa * 10 ^ a.scale * 10 ^ b.scale := by
    calc a.mantissa * 10 ^ c.scale * 10 ^ b.scale
        = a.mantissa * 10 ^ b.scale * 10 ^ c.scale := by ring
      _ ≤ b.mantissa * 10 ^ a.scale * 10 ^ c.scale := Nat.mul_le_mul_right _ h1
      _ = b.mantissa * 10 ^ c.scale * 10 ^ a.scale := by ring
      _ ≤ c.mantissa * 10 ^ b.scale * 10 ^ a.scale := Nat.mul_le_mul_right _ h2
      _ = c.mantissa * 10 ^ a.scale * 10 ^ b.scale := by ring
  exact Nat.le_of_mul_le_mul_right key (Nat.pos_pow_of_pos _ (by norm_num))

theorem maxTok_cases (a b : DecTok) : maxTok a b = a ∨ maxTok a b = b := by
  unfold maxTok
  by_cases h : DecTok.lt a b = true
  · exact Or.inr (by simp [h])
  · exact Or.inl (by simp [h])

theorem le_maxTok_left (a b : DecTok) : DecTok.Le a (maxTok a b) := by
  unfold maxTok
  cases h : DecTok.lt a b with
  | true => simpa using DecTok.le_of_lt h
  | false => simpa using DecTok.Le.refl a

theorem le_maxTok_right (a b : DecTok) : DecTok.Le b (maxTok a b) := by
  unfold maxTok
  cases h : DecTok.lt a b with
  | true => simpa using DecTok.Le.refl b
  | false => simpa using DecTok.le_of_not_lt h

theorem foldlMaxTok_spec (x : DecTok) (xs : List DecTok) :
    (xs.foldl maxTok x = x ∨ xs.foldl maxTok x ∈ xs) ∧
      DecTok.Le x (xs.foldl maxTok x) ∧ ∀ w ∈ xs, DecTok.Le w (xs.foldl maxTok x) := by
  induction xs generalizing x with
  | nil => exact ⟨Or.inl rfl, DecTok.Le.refl x, by simp⟩
  | cons c t ih =>
    rcases ih (maxTok x c) with ⟨hmem, hle, hall⟩
    have hfold : (c :: t).foldl maxTok x = t.foldl maxTok (maxTok x c) := rfl
    refine ⟨?_, ?_, ?_⟩
    · rw [hfold]
      rcases hmem with h | h
      · rcases maxTok_cases x c with hm | hm
        · exact Or.inl (by rw [h, hm])
        · refine Or.inr ?_
          rw [h, hm]
          exact List.mem_cons_self c t
      · exact Or.inr (List.mem_cons_of_mem c h)
    · rw [hfold]
      exact DecTok.Le.trans (le_maxTok_left x c) hle
    · intro w hw
      rw [hfold]
      rcases List.mem_cons.mp hw with h | h
      · rw [h]
        exact DecTok.Le.trans (le_maxTok_right x c) hle
      · exact hall w h

theorem mahScan_head : ∀ (fuel : Nat) (l : List Char), l.length ≤ fuel →
    (mahScanF fuel l).head? = mahSearch l := by
  intro fuel
  induction fuel with
  | zero =>
    intro l h
    have : l = [] := List.length_eq_zero.mp (Nat.le_zero.mp h)
    subst this
    rfl
  | succ n ih =>
    intro l h
    cases l with
    | nil => rfl
    | cons c rest =>
      simp only [mahScanF, mahSearch]
      cases htok : mahTokenAt (c :: rest) with
      | some v => cases v; rfl
      | none => exact ih rest (Nat.le_of_succ_le_succ (by simpa using h))

theorem lookup_eq_find (q : String) (l : List (String × String)) :
    l.lookup q = (l.find? (fun kv => kv.1 == q)).map (fun kv => kv.2) := by
  induction l with
  | nil => rfl
  | cons kv t ih =>
    cases kv with
    | mk k v =>
      by_cases h : k = q
      · subst h
        simp [List.lookup, List.find?]
      · have hb : (k == q) = false := by
          simp [h]
        have hb2 : (q == k) = false := by
          simp [Ne.symm h]
        simp [List.lookup, List.find?, hb, hb2, ih]

theorem lowerStr_empty : lowerStr ("") = "" := rfl

theorem lowerStr_eq_empty {s : String} (h : lowerStr s = "") : s = "" := by
  cases s with
  | mk data =>
    cases data with
    | nil => rfl
    | cons c cs =>
      have hdat := congrArg String.data h
      simp [lowerStr] at hdat

theorem notExceedsMax (b v : Option Int) : (!exceedsMax b v) = specMaxOk b v := by
  cases b with
  | none => cases v <;> rfl
  | some bb =>
    cases v with
    | none => rfl
    | some vv =>
      show (!(decide (bb < vv))) = decide (vv ≤ bb)
      rw [← decide_not, decide_eq_decide]
      exact not_lt

theorem notBelowMin (b v : Option Int) : (!belowMin b v) = specMinOk b v := by
  cases b with
  | none => cases v <;> rfl
  | some bb =>
    cases v with
    | none => rfl
    | some vv =>
      show (!(decide (vv < bb))) = decide (bb ≤ vv)
      rw [← decide_not, decide_eq_decide]
      exact not_lt

theorem notBrandRejects (b bn : Option String) : (!brandRejects b bn) = specBrandOk b bn := by
  cases b with
  | none => rfl
  | some s =>
    by_cases hs : s = ""
    · subst hs
      cases bn <;> simp [brandRejects, specBrandOk, orEmpty]
    · have hsb : (s == "") = false := by simp [hs]
      cases bn with
      | none =>
        have hl : lowerStr s ≠ "" := fun h => hs (lowerStr_eq_empty h)
        have hne : (("" : String) == lowerStr s) = false := by
          simp only [beq_eq_false_iff_ne]
          exact fun h => hl h.symm
        simp [brandRejects, specBrandOk, orEmpty, hsb, lowerStr_empty, hne]
      | some t =>
        simp [brandRejects, specBrandOk, orEmpty, hsb]

theorem passes_eq_survives (f : SearchFilters) (p : CatalogRecord) :
    passesFilters f p = specSurvives f p := by
  simp only [passesFilters, specSurvives, notBrandRejects, notExceedsMax, notBelowMin]

theorem filter_passes_eq (db : List CatalogRecord) (f : SearchFilters) :
    db.filter (passesFilters f) = db.filter (specSurvives f) := by
  induction db with
  | nil => rfl
  | cons a t ih => simp [List.filter, passes_eq_survives f a, ih]

theorem lowestPrice_cur (price : Option String)
    (hne : currencyValues (orEmpty price) ≠ []) :
    ∃ v, lowestPriceOfText price = some (Int.ofNat v) ∧
      v ∈ currencyValues (orEmpty price) ∧
      ∀ w ∈ currencyValues (orEmpty price), v ≤ w := by
  cases hc : currencyValues (orEmpty price) with
  | nil => exact absurd hc hne
  | cons v vs =>
    have hval : lowestPriceOfText price = some (Int.ofNat (vs.foldl Nat.min v)) := by
      simp only [lowestPriceOfText, hc]
      rfl
    rcases foldlMin_spec v vs with ⟨hmem, hle, hall⟩
    refine ⟨vs.foldl Nat.min v, hval, ?_, ?_⟩
    · rcases hmem with h | h
      · rw [h]
        exact List.mem_cons_self v vs
      · exact List.mem_cons_of_mem v h
    · intro w hw
      rcases List.mem_cons.mp hw with h | h
      · rw [h]
        exact hle
      · exact hall w h

theorem lowestPrice_fallback (price : Option String)
    (hc : currencyValues (orEmpty price) = [])
    (hne : bigGeneric (orEmpty price) ≠ []) :
    ∃ v, lowestPriceOfText price = some (Int.ofNat v) ∧
      v ∈ bigGeneric (orEmpty price) ∧
      ∀ w ∈ bigGeneric (orEmpty price), v ≤ w := by
  cases hg : bigGeneric (orEmpty price) with
  | nil => exact absurd hg hne
  | cons v vs =>
    have hval : lowestPriceOfText price = some (Int.ofNat (vs.foldl Nat.min v)) := by
      simp only [lowestPriceOfText, hc, hg]
      rfl
    rcases foldlMin_spec v vs with ⟨hmem, hle, hall⟩
    refine ⟨vs.foldl Nat.min v, hval, ?_, ?_⟩
    · rcases hmem with h | h
      · rw [h]
        exact List.mem_cons_self v vs
      · exact List.mem_cons_of_mem v h
    · intro w hw
      rcases List.mem_cons.mp hw with h | h
      · rw [h]
        exact hle
      · exact hall w h

theorem lowestPrice_none (price : Option String)
    (hc : currencyValues (orEmpty price) = [])
    (hg : bigGeneric (orEmpty price) = []) :
    lowestPriceOfText price = none := by
  simp only [lowestPriceOfText, hc, hg]
  rfl

theorem maxRam_none (rs : Option String) (specs : Option (List (String × List SpecEntry)))
    (h : gbValues (ramJoined rs specs) = []) : maxRamOfFields rs specs = none := by
  simp only [maxRamOfFields, h]

theorem maxRam_max (rs : Option String) (specs : Option (List (String × List SpecEntry)))
    (hne : gbValues (ramJoined rs specs) ≠ []) :
    ∃ t, t ∈ gbValues (ramJoined rs specs) ∧
      (∀ w ∈ gbValues (ramJoined rs specs), DecTok.Le w t) ∧
      maxRamOfFields rs specs = some (Int.ofNat (DecTok.trunc t)) := by
  cases hc : gbValues (ramJoined rs specs) with
  | nil => exact absurd hc hne
  | cons v vs =>
    have hval : maxRamOfFields rs specs = some (Int.ofNat (DecTok.trunc (vs.foldl maxTok v))) := by
      simp only [maxRamOfFields, hc]
    rcases foldlMaxTok_spec v vs with ⟨hmem, hle, hall⟩
    refine ⟨vs.foldl maxTok v, ?_, ?_, hval⟩
    · rcases hmem with h | h
      · rw [h]
        exact List.mem_cons_self v vs
      · exact List.mem_cons_of_mem v h
    · intro w hw
      rcases List.mem_cons.mp hw with h | h
      · rw [h]
        exact hle
      · exact hall w h

/-! ## Claim theorems -/

/-- Claim C1 (amended): for every catalog snapshot and criteria set, a
numeric constraint (max_price, min_price, min_ram, battery_threshold,
refresh_rate) excludes a record only when both the constraint and the
corresponding derived value are present and the comparison fails; a
record whose derived value is absent is retained under that constraint;
when brand is constrained with a non-empty string, a record with a
missing brand_name is always excluded; constraints compose conjunctively,
so the returned phones are exactly the records surviving every supplied
constraint, in the store's row order. -/
theorem c1_filter_semantics (db : List CatalogRecord) (f : SearchFilters) :
    (search_phones_by_filters db f).phones = db.filter (specSurvives f) ∧
      (search_phones_by_filters db f).success = true ∧
      (search_phones_by_filters db f).count = (db.filter (specSurvives f)).length := by
  have hfilter := filter_passes_eq db f
  exact ⟨hfilter, rfl, congrArg List.length hfilter⟩

/-- Claim C1 as frozen is false on the code: with the constraint set
whose only entry is the empty brand string, a record with a missing
`brand_name` is retained by `search_phones_by_filters`, while the
claim's reading of "brand is constrained" demands its exclusion. -/
theorem c1_counterexample :
    (search_phones_by_filters [noBrandRec] emptyBrandFilters).phones = [noBrandRec] ∧
      [noBrandRec].filter (specSurvivesOrig emptyBrandFilters) = [] := by
  constructor
  · decide
  · decide

/-- Claim C10: when `search_phones_by_filters` is called with brand equal
to the empty string (not absent), the brand key is still recorded in the
returned `filters_applied` mapping, yet no record is excluded by brand:
the result rows coincide with those of the same criteria without any
brand constraint. -/
theorem c10_empty_brand_reported_not_applied (db : List CatalogRecord) (f : SearchFilters)
    (h : f.brand = some ("")) :
    (("brand"), FilterValue.str ("")) ∈ (search_phones_by_filters db f).filters_applied ∧
      (search_phones_by_filters db f).phones =
        (search_phones_by_filters db (dropBrand f)).phones := by
  constructor
  · show (("brand"), FilterValue.str ("")) ∈ filtersApplied f
    unfold filtersApplied
    rw [h]
    simp
  · show db.filter (passesFilters f) = db.filter (passesFilters (dropBrand f))
    induction db with
    | nil => rfl
    | cons a t ih =>
      have hpt : passesFilters f a = passesFilters (dropBrand f) a := by
        unfold passesFilters dropBrand
        rw [h]
        simp [brandRejects]
      simp [List.filter, hpt, ih]

theorem c10_witness :
    (("brand"), FilterValue.str ("")) ∈
        (search_phones_by_filters [noBrandRec] emptyBrandPlusPrice).filters_applied ∧
      (search_phones_by_filters [noBrandRec] emptyBrandPlusPrice).phones =
        (search_phones_by_filters [noBrandRec] (dropBrand emptyBrandPlusPrice)).phones :=
  c10_empty_brand_reported_not_applied [noBrandRec] emptyBrandPlusPrice rfl

/-- Claim C2: the lowest-price derivation returns the minimum of all
currency-annotated numeric tokens found in the price text when at least
one exists; otherwise the minimum of the generic digit-group tokens of
value at least 1000; otherwise no value; and on the price text
`"64GB 4GB RAM: ₹47,600, 128GB 4GB RAM: ₹52,600"` it returns 47600. -/
theorem c2_lowest_price (phone : CatalogRecord) :
    (currencyValues (orEmpty phone.price) ≠ [] →
        ∃ v, _parse_lowest_price phone = some (Int.ofNat v) ∧
          v ∈ currencyValues (orEmpty phone.price) ∧
          ∀ w ∈ currencyValues (orEmpty phone.price), v ≤ w) ∧
      (currencyValues (orEmpty phone.price) = [] → bigGeneric (orEmpty phone.price) ≠ [] →
        ∃ v, _parse_lowest_price phone = some (Int.ofNat v) ∧
          v ∈ bigGeneric (orEmpty phone.price) ∧
          ∀ w ∈ bigGeneric (orEmpty phone.price), v ≤ w) ∧
      (currencyValues (orEmpty phone.price) = [] → bigGeneric (orEmpty phone.price) = [] →
        _parse_lowest_price phone = none) ∧
      _parse_lowest_price p1Rec = some 47600 := by
  refine ⟨?_, ?_, ?_, by decide⟩
  · exact fun hne => lowestPrice_cur phone.price hne
  · exact fun hc hne => lowestPrice_fallback phone.price hc hne
  · exact fun hc hg => lowestPrice_none phone.price hc hg

theorem c2_witness :
    (∃ v, _parse_lowest_price p1Rec = some (Int.ofNat v) ∧
        v ∈ currencyValues (orEmpty p1Rec.price) ∧
        ∀ w ∈ currencyValues (orEmpty p1Rec.price), v ≤ w) ∧
      (∃ v, _parse_lowest_price comingSoonRec = some (Int.ofNat v) ∧
        v ∈ bigGeneric (orEmpty comingSoonRec.price) ∧
        ∀ w ∈ bigGeneric (orEmpty comingSoonRec.price), v ≤ w) ∧
      _parse_lowest_price noBrandRec = none :=
  ⟨(c2_lowest_price p1Rec).1 (by decide),
    (c2_lowest_price comingSoonRec).2.1 (by decide) (by decide),
    (c2_lowest_price noBrandRec).2.2.1 (by decide) (by decide)⟩

/-- Claim C5: the max-RAM derivation collects every numeric value followed
by a GB unit marker (case-insensitively, whitespace allowed before the
unit) from the spotlight ram_size field together with the info text of
every all_specs Memory entry, and returns the (truncated) maximum of
those values, or no value when there is no match; spotlight ram_size
`"8 GB"` alone yields 8, and a Memory entry `"8GB RAM, 12GB RAM"`
yields 12. -/
theorem c5_max_ram :
    (∀ phone : CatalogRecord,
        _parse_max_ram phone =
          maxRamOfFields (phone.spotlight.getD emptySpotlight).ram_size phone.all_specs) ∧
      (∀ (rs : Option String) (specs : Option (List (String × List SpecEntry))),
        (gbValues (ramJoined rs specs) = [] → maxRamOfFields rs specs = none) ∧
          (gbValues (ramJoined rs specs) ≠ [] →
            ∃ t, t ∈ gbValues (ramJoined rs specs) ∧
              (∀ w ∈ gbValues (ramJoined rs specs), DecTok.Le w t) ∧
              maxRamOfFields rs specs = some (Int.ofNat (DecTok.trunc t)))) ∧
      maxRamOfFields (some ("8 GB")) none = some 8 ∧
      maxRamOfFields none
          (some [(("Memory"), [{ label := some ("RAM"), info := some ("8GB RAM, 12GB RAM") }])]) =
        some 12 := by
  refine ⟨fun phone => rfl, fun rs specs => ⟨maxRam_none rs specs, maxRam_max rs specs⟩,
    by decide, by decide⟩

theorem c5_witness :
    ∃ t, t ∈ gbValues (ramJoined (some ("8 GB")) none) ∧
      (∀ w ∈ gbValues (ramJoined (some ("8 GB")) none), DecTok.Le w t) ∧
      maxRamOfFields (some ("8 GB")) none = some (Int.ofNat (DecTok.trunc t)) :=
  ((c5_max_ram).2.1 (some ("8 GB")) none).2 (by decide)

/-- Claim C6: the battery-capacity derivation scans the spotlight
battery_size field and the all_specs Battery entries for a 3-to-5-digit
number followed by an mAh unit marker, case-insensitively, and returns
the first match found (the head of the list of all matches in the joined
text), or no value when there is none; spotlight battery_size
`"4492 mAh 18W"` yields 4492. -/
theorem c6_battery :
    (∀ phone : CatalogRecord,
        _parse_battery_capacity phone =
          batteryOfFields (phone.spotlight.getD emptySpotlight).battery_size phone.all_specs) ∧
      (∀ (bs : Option String) (specs : Option (List (String × List SpecEntry))),
        batteryOfFields bs specs =
          ((mahValues (batteryJoined bs specs)).head?).map (fun n => Int.ofNat n)) ∧
      batteryOfFields (some ("4492 mAh 18W")) none = some 4492 := by
  refine ⟨fun phone => rfl, ?_, by decide⟩
  intro bs specs
  unfold batteryOfFields mahValues
  rw [mahScan_head _ _ (Nat.le_refl _)]

/-- Claim C7: each numeric derivation is a total function of the record
returning either a value or an absence marker (`Option`), each depends
only on its own source fields (so an unparseable field never disturbs the
other derivations of the same record), and missing or unparseable fields
yield `none`, never a default zero. -/
theorem c7_parsers_total (p q : CatalogRecord) :
    (p.price = q.price → _parse_lowest_price p = _parse_lowest_price q) ∧
      (p.spotlight = q.spotlight → p.all_specs = q.all_specs →
        _parse_max_ram p = _parse_max_ram q ∧
          _parse_battery_capacity p = _parse_battery_capacity q ∧
          _parse_refresh_rate p = _parse_refresh_rate q) ∧
      (p.price = none → _parse_lowest_price p = none) ∧
      (p.spotlight = none → p.all_specs = none →
        _parse_max_ram p = none ∧ _parse_battery_capacity p = none ∧
          _parse_refresh_rate p = none) ∧
      (_parse_lowest_price junkRec = none ∧ _parse_max_ram junkRec = none ∧
        _parse_battery_capacity junkRec = none ∧ _parse_refresh_rate junkRec = none) := by
  refine ⟨?_, ?_, ?_, ?_, by decide, by decide, by decide, by decide⟩
  · intro h
    unfold _parse_lowest_price
    rw [h]
  · intro h1 h2
    unfold _parse_max_ram _parse_battery_capacity _parse_refresh_rate
    rw [h1, h2]
    exact ⟨rfl, rfl, rfl⟩
  · intro h
    unfold _parse_lowest_price
    rw [h]
    decide
  · intro h1 h2
    unfold _parse_max_ram _parse_battery_capacity _parse_refresh_rate
    rw [h1, h2]
    refine ⟨by decide, by decide, by decide⟩

theorem c7_witness :
    _parse_max_ram p1Rec = _parse_max_ram pixelRec ∧ _parse_lowest_price noBrandRec = none :=
  ⟨((c7_parsers_total p1Rec pixelRec).2.1 rfl rfl).1,
    (c7_parsers_total noBrandRec noBrandRec).2.2.1 rfl⟩

/-- Claim C3 (amended): identity resolution as exposed by
`get_phone_details` returns the record whose id equals the identifier
exactly; if no exact id match exists, it returns the first record whose
phone name or id contains the identifier case-insensitively; and when
neither step matches any record it returns a structured success:false
not-found result; in particular resolving "iphone" against a catalog
holding "Apple iPhone 15" returns that record. -/
theorem c3_details_resolution :
    (∀ (db : List CatalogRecord) (identifier : String),
        get_phone_details db identifier =
          detailsFor identifier (specResolveNameOrId db identifier)) ∧
      (get_phone_details [pixelRec, iphoneRec] ("iphone")).success = true ∧
      (get_phone_details [pixelRec, iphoneRec] ("iphone")).phone = some iphoneRec := by
  refine ⟨?_, by decide, by decide⟩
  intro db ident
  simp only [get_phone_details, specResolveNameOrId, get_phone_by_model, get_phone_by_id]
  cases hid : db.find? (fun p => p.id == ident) with
  | some r => simp [hid, detailsFor]
  | none =>
    simp only [hid]
    cases hm : db.find? (fun p =>
        strIn (lowerStr ident) (lowerStr p.phone_name) ||
          strIn (lowerStr ident) (lowerStr p.id)) with
    | some r => simp [hm, detailsFor]
    | none => simp [hm, detailsFor]

/-- Claim C3 as frozen is false on the code: for the identifier "pixel-8"
no record's phone name contains it (the display name "Google Pixel 8a"
has a space, not a hyphen) and no exact id match exists, so the claim
demands a not-found result; but `get_phone_details` succeeds, because the
name-match fallback of `get_phone_by_model` also matches against the
record id "pixel-8a". -/
theorem c3_counterexample :
    specResolveNameOnly [pixelRec] ("pixel-8") = none ∧
      (get_phone_details [pixelRec] ("pixel-8")).success = true ∧
      (get_phone_details [pixelRec] ("pixel-8")).phone = some pixelRec := by
  refine ⟨by decide, by decide, by decide⟩

/-- Claim C4 (amended): `compare_phones` returns a structured
success:false not-found result whenever either mandatory identifier
fails to resolve; when both mandatory identifiers resolve and the third
fails to resolve it succeeds with only the first two records; and the
output preserves input order, the third record being included when the
third identifier is a non-empty string that resolves (an empty-string
third identifier is skipped without lookup). -/
theorem c4_compare_semantics (db : List CatalogRecord) (id1 id2 : String) (id3 : Option String) :
    ((resolvePhone db id1 = none ∨ resolvePhone db id2 = none) →
        (compare_phones db id1 id2 id3).success = false ∧
          (compare_phones db id1 id2 id3).phones = [] ∧
          (compare_phones db id1 id2 id3).error = some ("One or more phones not found")) ∧
      (∀ p1 p2, resolvePhone db id1 = some p1 → resolvePhone db id2 = some p2 →
        (compare_phones db id1 id2 id3).success = true ∧
          (id3 = none → (compare_phones db id1 id2 id3).phones = [p1, p2]) ∧
          (∀ s, id3 = some s → resolvePhone db s = none →
            (compare_phones db id1 id2 id3).phones = [p1, p2]) ∧
          (∀ s p3, id3 = some s → s ≠ "" → resolvePhone db s = some p3 →
            (compare_phones db id1 id2 id3).phones = [p1, p2, p3])) := by
  constructor
  · intro h
    have hfail : compare_phones db id1 id2 id3 =
        { success := false
          phones := []
          error := some ("One or more phones not found")
          message := "Please check the phone IDs and try again" } := by
      simp only [compare_phones]
      rcases h with h | h
      · simp [h]
      · cases hr1 : resolvePhone db id1 with
        | none => simp [hr1]
        | some p1 => simp [h, hr1]
    rw [hfail]
    exact ⟨rfl, rfl, rfl⟩
  · intro p1 p2 hp1 hp2
    refine ⟨?_, ?_, ?_, ?_⟩
    · simp [compare_phones, hp1, hp2]
    · intro h3
      subst h3
      simp [compare_phones, hp1, hp2]
    · intro s h3 hs
      subst h3
      by_cases hse : s = ""
      · subst hse
        simp [compare_phones, hp1, hp2]
      · have hb : (s == "") = false := by simp [hse]
        simp [compare_phones, hp1, hp2, hb, hs]
    · intro s p3 h3 hse hs
      subst h3
      have hb : (s == "") = false := by simp [hse]
      simp [compare_phones, hp1, hp2, hb, hs]

/-- Claim C4 as frozen is false on the code: with the one-record catalog
`[appleRec]`, the third identifier `""` resolves (the empty string is a
substring of every phone name), yet `compare_phones` never looks it up
and omits it, so the successful output holds only the two mandatory
records instead of the resolved third. -/
theorem c4_counterexample :
    resolvePhone [appleRec] ("") = some appleRec ∧
      (compare_phones [appleRec] ("a") ("a") (some (""))).success = true ∧
      (compare_phones [appleRec] ("a") ("a") (some (""))).phones = [appleRec, appleRec] := by
  refine ⟨by decide, by decide, by decide⟩

theorem c4_witness :
    (compare_phones [alphaRec, betaRec] ("a") ("b") (some ("zzz-missing"))).success = true ∧
      (compare_phones [alphaRec, betaRec] ("a") ("b") (some ("zzz-missing"))).phones =
        [alphaRec, betaRec] := by
  have h := (c4_compare_semantics [alphaRec, betaRec] ("a") ("b") (some ("zzz-missing"))).2
    alphaRec betaRec (by decide) (by decide)
  exact ⟨h.1, h.2.2.1 ("zzz-missing") rfl (by decide)⟩

/-- Claim C8: `explain_phone_feature` returns the glossary entry whose key
equals the lowercased query exactly when one exists; otherwise the first
entry, in glossary iteration order, whose key is a substring of the
lowercased query or whose key contains the lowercased query; and when no
key matches either way it returns a success:false result listing all
known glossary keys. -/
theorem c8_explain :
    (∀ feature : String, explain_phone_feature feature = specExplain feature) ∧
      explain_phone_feature ("What is OIS vs EIS") =
        { success := true, feature := some ("Optical Image Stabilization (OIS)")
          available_features := none } ∧
      explain_phone_feature ("quantum flux") =
        { success := false, feature := none
          available_features := some (glossary.map (fun kv => lowerStr kv.1)) } := by
  refine ⟨?_, by decide, by decide⟩
  intro feature
  simp only [explain_phone_feature, specExplain]
  rw [lookup_eq_find]
  cases hf : (glossary.map (fun kv => (lowerStr kv.1, kv.2))).find?
      (fun kv => kv.1 == lowerStr feature) with
  | some kv => simp [hf]
  | none => simp [hf]

/-- Claim C9 (modelled from the spec: the store client module is not under
`src/backend`): a query raising on every attempt under the retry policy
with `MAX_RETRIES = 3` is executed exactly on attempts 1, 2 and 3 with no
attempt after the third, sleeps the backoff `base * 2^(attempt-1)` capped
at the maximum delay plus a jitter in `[0, 0.3)` between attempts, and
ends in a terminal failure distinct from any row result. -/
theorem c9_retry_exhaustion (base cap : Rat) (jitter : Nat → Rat)
    (query : Nat → Option (List Nat))
    (hfail : ∀ n, query n = none)
    (hjit : ∀ n, 0 ≤ jitter n ∧ jitter n < 3 / 10) :
    (runQueryWithRetry Nat 3 base cap jitter query).attempts = [1, 2, 3] ∧
      (runQueryWithRetry Nat 3 base cap jitter query).sleeps =
        [min (base * 2 ^ (1 - 1)) cap + jitter 1, min (base * 2 ^ (2 - 1)) cap + jitter 2] ∧
      (runQueryWithRetry Nat 3 base cap jitter query).outcome =
        StoreOutcome.terminalFailure ("all retries exhausted") ∧
      (∀ xs, (runQueryWithRetry Nat 3 base cap jitter query).outcome ≠ StoreOutcome.rows xs) ∧
      (∀ d ∈ (runQueryWithRetry Nat 3 base cap jitter query).sleeps,
        ∃ a, 1 ≤ a ∧ a ≤ 2 ∧ min (base * 2 ^ (a - 1)) cap ≤ d ∧
          d < min (base * 2 ^ (a - 1)) cap + 3 / 10) := by
  have hrun : runQueryWithRetry Nat 3 base cap jitter query =
      { outcome := StoreOutcome.terminalFailure ("all retries exhausted")
        attempts := [1, 2, 3]
        sleeps := [backoffDelay base cap 1 (jitter 1), backoffDelay base cap 2 (jitter 2)] } := by
    show retryLoop Nat base cap jitter query 1 2 = _
    simp [retryLoop, hfail]
  rw [hrun]
  refine ⟨rfl, ?_, rfl, ?_, ?_⟩
  · unfold backoffDelay
    rfl
  · intro xs h
    exact StoreOutcome.noConfusion h
  · intro d hd
    rcases List.mem_cons.mp hd with h | hd2
    · refine ⟨1, le_refl 1, by norm_num, ?_, ?_⟩
      · rw [h]
        exact le_add_of_nonneg_right (hjit 1).1
      · rw [h]
        exact add_lt_add_left (hjit 1).2 _
    · rcases List.mem_cons.mp hd2 with h | h
      · refine ⟨2, by norm_num, le_refl 2, ?_, ?_⟩
        · rw [h]
          exact le_add_of_nonneg_right (hjit 2).1
        · rw [h]
          exact add_lt_add_left (hjit 2).2 _
      · exact absurd h (List.not_mem_nil d)

theorem c9_witness :
    (runQueryWithRetry Nat 3 1 8 (fun _ => 0) (fun _ => none)).attempts = [1, 2, 3] ∧
      (runQueryWithRetry Nat 3 1 8 (fun _ => 0) (fun _ => none)).outcome =
        StoreOutcome.terminalFailure ("all retries exhausted") := by
  have h := c9_retry_exhaustion 1 8 (fun _ => 0) (fun _ => none) (fun n => rfl)
    (fun n => ⟨le_refl 0, by norm_num⟩)
  exact ⟨h.1, h.2.2.1⟩
